import Mathlib

/-!
Shallow embedding of scapy/supersocket.py: the SuperSocket transport layer.
Byte strings are modelled as `List Nat`; a decoded packet (scapy `Packet`)
is its chain of layers, each layer carrying its own bytes (`load`) and a
flag telling whether it is an instance of `conf.padding_layer`.
-/

namespace SuperSock

/-- Wire bytes, as handed to and from sockets. -/
abbrev Bytes := List Nat

/-- One layer of a decoded packet: `isPadding` models
`isinstance(layer, conf.padding_layer)`, `load` the bytes the layer owns
(for padding/raw layers this is scapy's `.load` attribute). -/
structure Layer where
  isPadding : Bool
  load : Bytes
  deriving DecidableEq

/-- A decoded packet: the ordered chain of layers, outermost first;
the end of the list models scapy's `NoPayload` terminator. -/
abbrev Frame := List Layer

/-- Serialized length of a packet, `len(pkt)` in scapy. -/
def frameLen (f : Frame) : Nat := (f.map (fun l => l.load.length)).sum

/-- A decoder capability (`basecls`): bytes to a packet, or a failure
(`none` models the constructor raising). -/
abbrev Decoder := Bytes → Option Frame

/-- The sub-chain starting at `pkt.getlayer(conf.padding_layer)`: the first
layer that is a padding instance, together with everything below it. -/
def padChain : Frame → Frame
  | [] => []
  | l :: ls => if l.isPadding then l :: ls else padChain ls

/-- The layers strictly above the first padding layer (what remains attached
after `del(pad.underlayer.payload)`). -/
def prePad : Frame → Frame
  | [] => []
  | l :: ls => if l.isPadding then [] else l :: prePad ls

/-- Total byte length of the padding chain: the `while` loop
`x -= len(pad.load); pad = pad.payload` sums exactly these lengths. -/
def padLen (f : Frame) : Nat := ((padChain f).map (fun l => l.load.length)).sum

/-- The bytes held by the padding chain, in order. -/
def padBytes (f : Frame) : Bytes := ((padChain f).map Layer.load).flatten

/-- Effect of `if pad is not None and pad.underlayer is not None:
del(pad.underlayer.payload)` on the returned packet: the padding chain is cut
off unless the padding is the root layer (no underlayer), in which case the
packet is returned unchanged. -/
def detachPad (f : Frame) : Frame :=
  if prePad f = [] then f else prePad f

/-- Shape of the value a boundary-detecting decoder returns on the bytes of
one well-formed frame followed by `rest` trailing bytes: no padding layer at
all when nothing trails, one padding layer holding exactly the trailing
bytes otherwise. -/
def padWrap (rest : Bytes) : Frame :=
  if rest = [] then [] else [⟨true, rest⟩]

/-- Python slice `l[i:]` for a possibly negative `i`. -/
def pySlice (l : Bytes) (i : Int) : Bytes :=
  if 0 ≤ i then l.drop i.toNat else l.drop (l.length - (-i).toNat)

/-- Errors a recv call can raise. `connectionClosed` is
`socket.error((100, "Underlying stream socket tore down"))`; `decodeFailed`
is an unguarded `basecls` exception; `negSize` models `socket.recv` being
handed a negative byte count. -/
inductive RecvErr
  | connectionClosed
  | decodeFailed
  | negSize
  deriving DecidableEq

/-- StreamSocket.recv: peek up to `x` bytes (`MSG_PEEK`), fail on zero bytes,
decode, detach trailing padding, then destructively read
`peeked length - padding length` bytes. The channel is modelled as the list
of bytes available to read; the result pairs the returned packet with the
channel contents after the destructive read. -/
def streamRecv (decode : Decoder) (stream : Bytes) (x : Nat) :
    Except RecvErr (Frame × Bytes) :=
  let pkt := stream.take x
  let n := pkt.length
  if n = 0 then .error .connectionClosed
  else
    match decode pkt with
    | none => .error .decodeFailed
    | some f =>
      let consumed : Int := (n : Int) - (padLen f : Int)
      if consumed < 0 then .error .negSize
      else .ok (detachPad f, stream.drop consumed.toNat)

/-- State of an SSLStreamSocket: the persistent partial buffer `_buf` and the
bytes still available on the underlying channel. -/
structure SSLState where
  buf : Bytes
  stream : Bytes
  deriving DecidableEq

/-- Python truthiness of the first decode attempt: `not pkt` is true when the
decode failed (`None`) or the decoded packet serializes to zero bytes
(scapy `Packet.__len__`). -/
def pktTruthy : Option Frame → Bool
  | none => false
  | some f => decide (frameLen f ≠ 0)

/-- Steps 1-2 of SSLStreamSocket.recv: attempt a guarded decode of the current
buffer (every exception swallowed as buffer underflow); if that produced
nothing truthy, perform one blocking read of up to `x` bytes, failing on a
zero-length read, and append it to the buffer. Returns the state at the start
of the unguarded re-decode. -/
def sslFill (decode : Decoder) (st : SSLState) (x : Nat) :
    Except RecvErr SSLState :=
  let pkt0 : Option Frame := if st.buf ≠ [] then decode st.buf else none
  if pktTruthy pkt0 then .ok st
  else
    let incoming := st.stream.take x
    if incoming.length = 0 then .error .connectionClosed
    else .ok ⟨st.buf ++ incoming, st.stream.drop x⟩

/-- Steps 3-6 of SSLStreamSocket.recv: unguarded decode of the whole buffer
(a failure propagates), padding detachment and accounting as in
StreamSocket.recv, then `self._buf = self._buf[x:]` keeps the unconsumed
suffix for the next call. -/
def sslConsume (decode : Decoder) (st : SSLState) :
    Except RecvErr (Frame × SSLState) :=
  let n := st.buf.length
  match decode st.buf with
  | none => .error .decodeFailed
  | some f =>
    let keepFrom : Int := (n : Int) - (padLen f : Int)
    .ok (detachPad f, ⟨pySlice st.buf keepFrom, st.stream⟩)

/-- SSLStreamSocket.recv in full. -/
def sslRecv (decode : Decoder) (st : SSLState) (x : Nat) :
    Except RecvErr (Frame × SSLState) :=
  (sslFill decode st x).bind (sslConsume decode)

/-- Iterated StreamSocket.recv: one call per entry of the list of peek sizes,
threading the channel, collecting the returned packets. -/
def streamRecvN (decode : Decoder) : List Nat → Bytes → Except RecvErr (List Frame × Bytes)
  | [], s => .ok ([], s)
  | x :: xs, s =>
    (streamRecv decode s x).bind fun p =>
      (streamRecvN decode xs p.2).bind fun q => .ok (p.1 :: q.1, q.2)

/-- Linux `socket.PACKET_OUTGOING`. -/
def PACKET_OUTGOING : Nat := 4

/-- Outcome of calling a packet class constructor `cls(pkt)`:
a decoded packet, an ordinary exception, or a `KeyboardInterrupt`. -/
inductive DecodeResult
  | ok (f : Frame)
  | exn
  | interrupt

/-- A packet class usable as a decoder in L3RawSocket.recv. -/
abbrev ClsDecoder := Bytes → DecodeResult

/-- The `sa_ll` address returned by `recvfrom` on an `AF_PACKET` socket:
`(interface name, protocol, packet type, hardware/link type, ...)`. -/
structure SockAddrLL where
  ifname : String
  protocol : Nat
  pkttype : Nat
  hatype : Nat
  deriving DecidableEq

/-- The pieces of `conf` that L3RawSocket.recv consults: the two decoder
registries (`conf.l2types`, `conf.l3types`), the fallback class
`conf.default_l2` with its display name, and the strict flag
`conf.debug_dissector`. -/
structure L3Conf where
  l2types : Nat → Option ClsDecoder
  l3types : Nat → Option ClsDecoder
  default_l2 : ClsDecoder
  default_l2_name : String
  debug_dissector : Bool

/-- A structured record of the one warning L3RawSocket.recv can emit:
`"Unable to guess type (interface=%s protocol=%#x family=%i). Using %s"`
carries the interface name, the protocol code, the link/family code and the
name of the chosen default class. -/
structure GuessWarning where
  iface : String
  protocol : Nat
  family : Nat
  clsName : String
  deriving DecidableEq

/-- conf.raw_layer applied to raw bytes: one opaque non-padding layer holding
the whole input. -/
def rawLayer (b : Bytes) : Frame := [⟨false, b⟩]

/-- Decoder dispatch of L3RawSocket.recv: link type against `conf.l2types`
first, then protocol against `conf.l3types`, else the default with one
warning. Returns the chosen class, the level (2 or 3) and the warnings
emitted. -/
def selectCls (cfg : L3Conf) (sa : SockAddrLL) :
    ClsDecoder × Nat × List GuessWarning :=
  match cfg.l2types sa.hatype with
  | some c => (c, 2, [])
  | none =>
    match cfg.l3types sa.protocol with
    | some c => (c, 3, [])
    | none =>
      (cfg.default_l2, 3,
        [⟨sa.ifname, sa.protocol, sa.hatype, cfg.default_l2_name⟩])

/-- Exceptions L3RawSocket.recv can let escape: a re-raised
`KeyboardInterrupt`, or the decode error re-raised under
`conf.debug_dissector`. -/
inductive L3Err
  | keyboardInterrupt
  | dissectError
  deriving DecidableEq

/-- What one L3RawSocket.recv call produces: the returned packet (`none`
models returning `None`), the warnings emitted, and how many times a decoder
was invoked on the captured bytes. -/
structure L3RecvOut where
  result : Option Frame
  warnings : List GuessWarning
  decodeAttempts : Nat
  deriving DecidableEq

/-- L3RawSocket.recv on one captured read `(pkt, sa_ll)`: outgoing packets
yield `None` untouched; otherwise dispatch, decode (KeyboardInterrupt
re-raised; other failures re-raised under `conf.debug_dissector`, else
degraded to `conf.raw_layer(pkt)`), and strip the link header
(`pkt = pkt.payload`) when the level is 2. -/
def l3recv (cfg : L3Conf) (pkt : Bytes) (sa : SockAddrLL) :
    Except L3Err L3RecvOut :=
  if sa.pkttype = PACKET_OUTGOING then .ok ⟨none, [], 0⟩
  else
    let sel := selectCls cfg sa
    let decoded : Except L3Err Frame :=
      match sel.1 pkt with
      | .ok f => .ok f
      | .interrupt => .error .keyboardInterrupt
      | .exn =>
        if cfg.debug_dissector then .error .dissectError
        else .ok (rawLayer pkt)
    decoded.bind fun f =>
      .ok ⟨some (if sel.2.1 = 2 then f.tail else f), sel.2.2, 1⟩

/-- A packet handed to L3RawSocket.send: its serialization `str(x)` and its
`dst` field. -/
structure OutPkt where
  dst : String
  wire : Bytes
  deriving DecidableEq

/-- Observable effects of one L3RawSocket.send call. The function returning
this record (rather than an exception monad) models that the `except
socket.error` clause lets no channel-level error escape to the caller. -/
structure SendEffects where
  attempted : Option (Bytes × String × Nat)
  stamped : Bool
  logged : List String
  deriving DecidableEq

/-- L3RawSocket.send: serialize, stamp `x.sent_time`, then
`self.outs.sendto(sx, (x.dst, 0))`; a `socket.error` is caught and logged
via `log_runtime.error`. The channel is a function from the bytes and the
`(host, port)` address to a result or a `socket.error` message. -/
def l3send (sendto : Bytes → String × Nat → Except String Nat) (x : OutPkt) :
    SendEffects :=
  match sendto x.wire (x.dst, 0) with
  | .ok _ => ⟨some (x.wire, x.dst, 0), true, []⟩
  | .error msg => ⟨some (x.wire, x.dst, 0), true, [msg]⟩

/-- State of a SuperSocket handle for `close()`: the `closed` flag, the input
and output channels as optional channel identities (`none` models a channel
that is `None` or was never opened), and each channel's file descriptor
(`-1` models an already-closed channel, as `fileno()` reports). -/
structure CloseState where
  closed : Bool
  ins : Option Nat
  outs : Option Nat
  fd : Nat → Int

/-- SuperSocket.close: return immediately when already closed; otherwise set
the flag, close `outs` first but only when it is a different channel than
`ins`, is present and still live, then close `ins` when present and still
live. Returns the new state and the list of channels closed by this call, in
closing order. -/
def closeOp (s : CloseState) : CloseState × List Nat :=
  if s.closed then (s, [])
  else
    let outsClosed : List Nat :=
      if s.ins ≠ s.outs then
        match s.outs with
        | some o => if s.fd o ≠ -1 then [o] else []
        | none => []
      else []
    let insClosed : List Nat :=
      match s.ins with
      | some i => if s.fd i ≠ -1 then [i] else []
      | none => []
    let all := outsClosed ++ insClosed
    ({ closed := true, ins := s.ins, outs := s.outs,
       fd := fun c => if c ∈ all then -1 else s.fd c }, all)

/-- Decidable equality for `Except`, so concrete recv outcomes can be checked
by `decide`. -/
instance {ε α : Type _} [DecidableEq ε] [DecidableEq α] :
    DecidableEq (Except ε α) := fun x y =>
  match x, y with
  | .ok a, .ok b => decidable_of_iff (a = b) (by simp)
  | .error e, .error e' => decidable_of_iff (e = e') (by simp)
  | .ok _, .error _ => isFalse (by simp)
  | .error _, .ok _ => isFalse (by simp)

/-- A concrete decoder for witnesses: first byte is the protocol layer, the
remainder is reported as one trailing padding layer. -/
def padDemoDecode : Decoder := fun b =>
  some [⟨false, b.take 1⟩, ⟨true, b.drop 1⟩]

/-- A concrete boundary-detecting decoder for witnesses: it recognises the
two well-formed frames `[1, 2]` and `[3]` and reports anything after the
recognised frame as padding. -/
def demoDecode : Decoder := fun b =>
  match b with
  | [] => none
  | h :: t =>
    if h = 1 then
      match t with
      | [] => none
      | h2 :: t2 => if h2 = 2 then some ([⟨false, [1, 2]⟩] ++ padWrap t2) else none
    else if h = 3 then some ([⟨false, [3]⟩] ++ padWrap t)
    else none

/-- A concrete decoder for witnesses that needs at least two bytes before it
succeeds. -/
def minLenDecode : Decoder := fun b =>
  if b.length < 2 then none else some [⟨false, b⟩]

/-- A concrete configuration for witnesses: both registries empty, the
default class decodes everything into one opaque layer. -/
def demoL3Conf : L3Conf :=
  ⟨fun _ => none, fun _ => none, fun b => .ok [⟨false, b⟩], "Ether", false⟩

/-- A concrete configuration for witnesses whose default class raises
`KeyboardInterrupt`. -/
def interruptL3Conf : L3Conf :=
  ⟨fun _ => none, fun _ => none, fun _ => .interrupt, "Ether", false⟩

theorem padChain_append_of_no_pad {fl : Frame} (g : Frame)
    (h : ∀ l ∈ fl, l.isPadding = false) :
    padChain (fl ++ g) = padChain g := by
  induction fl with
  | nil => rfl
  | cons l ls ih =>
    rw [List.cons_append]
    simp only [padChain, h l (List.mem_cons_self l ls), Bool.false_eq_true, if_false]
    exact ih fun l' hl' => h l' (List.mem_cons_of_mem l hl')

theorem prePad_append_of_no_pad {fl : Frame} (g : Frame)
    (h : ∀ l ∈ fl, l.isPadding = false) :
    prePad (fl ++ g) = fl ++ prePad g := by
  induction fl with
  | nil => rfl
  | cons l ls ih =>
    rw [List.cons_append]
    simp only [padChain, prePad, h l (List.mem_cons_self l ls), Bool.false_eq_true,
      if_false, List.cons_append, List.cons.injEq, true_and]
    exact ih fun l' hl' => h l' (List.mem_cons_of_mem l hl')

theorem padChain_padWrap (rest : Bytes) : padChain (padWrap rest) = padWrap rest := by
  by_cases h : rest = [] <;> simp [padWrap, padChain, h]

theorem padLen_append_padWrap {fl : Frame} (rest : Bytes)
    (h : ∀ l ∈ fl, l.isPadding = false) :
    padLen (fl ++ padWrap rest) = rest.length := by
  unfold padLen
  rw [padChain_append_of_no_pad _ h, padChain_padWrap]
  by_cases hr : rest = [] <;> simp [padWrap, hr]

theorem prePad_padWrap (rest : Bytes) : prePad (padWrap rest) = [] := by
  by_cases h : rest = [] <;> simp [padWrap, prePad, h]

theorem detachPad_append_padWrap {fl : Frame} (rest : Bytes)
    (hne : fl ≠ []) (h : ∀ l ∈ fl, l.isPadding = false) :
    detachPad (fl ++ padWrap rest) = fl := by
  unfold detachPad
  rw [prePad_append_of_no_pad _ h, prePad_padWrap, List.append_nil]
  simp [hne]

theorem padBytes_length (f : Frame) : (padBytes f).length = padLen f := by
  unfold padBytes padLen
  rw [List.length_flatten, List.map_map]
  rfl

theorem closeOp_of_closed {s : CloseState} (h : s.closed = true) :
    closeOp s = (s, []) := by
  simp [closeOp, h]

theorem closeOp_fst_closed (s : CloseState) : (closeOp s).1.closed = true := by
  by_cases h : s.closed <;> simp [closeOp, h]

theorem closeOp_list_nodup (s : CloseState) : (closeOp s).2.Nodup := by
  rcases s with ⟨c, i, o, fd⟩
  by_cases hc : c
  · simp [closeOp, hc]
  · rcases i with _ | i <;> rcases o with _ | o <;>
      simp [closeOp, hc] <;> (try split_ifs) <;> (try simp_all) <;> omega

theorem closeOp_list_live (s : CloseState) :
    ∀ c ∈ (closeOp s).2, s.fd c ≠ -1 := by
  rcases s with ⟨c, i, o, fd⟩
  by_cases hc : c
  · simp [closeOp, hc]
  · rcases i with _ | i <;> rcases o with _ | o <;>
      simp [closeOp, hc] <;> (try split_ifs) <;> aesop

/-- C5: SuperSocket.close is idempotent and total: a second call is a no-op,
one call never closes a channel twice, only channels that are present and
still live get closed, a handle that is already flagged closed is untouched,
a handle with no channels (partially failed construction) closes nothing,
and when input and output are distinct live channels the output channel is
closed first, then the input channel. -/
theorem c5_close_idempotent (s : CloseState) :
    closeOp (closeOp s).1 = ((closeOp s).1, []) ∧
    (closeOp s).2.Nodup ∧
    (∀ c ∈ (closeOp s).2, s.fd c ≠ -1) ∧
    (s.closed = true → closeOp s = (s, [])) ∧
    (s.ins = none → s.outs = none → (closeOp s).2 = []) ∧
    (∀ i o, s.closed = false → s.ins = some i → s.outs = some o → i ≠ o →
      s.fd i ≠ -1 → s.fd o ≠ -1 → (closeOp s).2 = [o, i]) := by
  refine ⟨closeOp_of_closed (closeOp_fst_closed s), closeOp_list_nodup s,
    closeOp_list_live s, fun h => closeOp_of_closed h, ?_, ?_⟩
  · intro hi ho
    by_cases hc : s.closed <;> simp [closeOp, hc, hi, ho]
  · intro i o hc hi ho hio hfi hfo
    simp [closeOp, hc, hi, ho, hio, hfi, hfo]

theorem c5_close_idempotent_witness :
    (closeOp ⟨false, some 0, some 1, fun _ => 3⟩).2 = [1, 0] :=
  (c5_close_idempotent ⟨false, some 0, some 1, fun _ => 3⟩).2.2.2.2.2 0 1
    rfl rfl rfl (by decide) (by decide) (by decide)

/-- C6: an outgoing (self-sent) captured read makes L3RawSocket.recv return
`None` with zero decode attempts, no warning and no error. -/
theorem c6_outgoing_returns_none (cfg : L3Conf) (pkt : Bytes) (sa : SockAddrLL)
    (h : sa.pkttype = PACKET_OUTGOING) :
    l3recv cfg pkt sa = .ok ⟨none, [], 0⟩ := by
  simp [l3recv, h]

theorem c6_outgoing_returns_none_witness :
    l3recv demoL3Conf [1, 2, 3] ⟨"eth0", 2048, 4, 1⟩ = .ok ⟨none, [], 0⟩ :=
  c6_outgoing_returns_none demoL3Conf [1, 2, 3] ⟨"eth0", 2048, 4, 1⟩ rfl

/-- C9: L3RawSocket.send serializes the frame, stamps the send time and
writes it to the output channel addressed to the frame's `dst` with port 0;
a channel-level `socket.error` is logged and swallowed, so the call returns
a plain effects record (never an exception) in both cases. -/
theorem c9_send_logs_and_never_raises
    (sendto : Bytes → String × Nat → Except String Nat) (x : OutPkt) :
    (∀ n, sendto x.wire (x.dst, 0) = .ok n →
      l3send sendto x = ⟨some (x.wire, x.dst, 0), true, []⟩) ∧
    (∀ msg, sendto x.wire (x.dst, 0) = .error msg →
      l3send sendto x = ⟨some (x.wire, x.dst, 0), true, [msg]⟩) := by
  constructor
  · intro n h
    simp [l3send, h]
  · intro msg h
    simp [l3send, h]

theorem c9_send_logs_and_never_raises_witness :
    l3send (fun _ _ => .error "boom") ⟨"10.0.0.1", [1, 2]⟩ =
      ⟨some ([1, 2], "10.0.0.1", 0), true, ["boom"]⟩ :=
  (c9_send_logs_and_never_raises (fun _ _ => .error "boom")
    ⟨"10.0.0.1", [1, 2]⟩).2 "boom" rfl

/-- C1: padding law. For a StreamSocket.recv call whose peeked bytes decode
to a packet with total trailing padding length `P ≤ peeked length`, the call
succeeds and consumes exactly `peeked length - P` bytes from the channel;
for an SSLStreamSocket.recv call whose filled buffer decodes with padding
length `P ≤ buffered length`, exactly `buffered length - P` bytes are
removed from the buffer. Both cover `P = 0` and `P =` whole length; when the
padding is the root layer (`prePad f = []`) the detachment is skipped and
the packet is returned whole, with the same accounting. -/
theorem c1_padding_law (decode : Decoder) :
    (∀ (stream : Bytes) (x : Nat) (f : Frame),
      stream.take x ≠ [] →
      decode (stream.take x) = some f →
      padLen f ≤ (stream.take x).length →
      streamRecv decode stream x =
        .ok (detachPad f, stream.drop ((stream.take x).length - padLen f)) ∧
      stream.length - (stream.drop ((stream.take x).length - padLen f)).length =
        (stream.take x).length - padLen f) ∧
    (∀ (st st₁ : SSLState) (x : Nat) (f : Frame),
      sslFill decode st x = .ok st₁ →
      decode st₁.buf = some f →
      padLen f ≤ st₁.buf.length →
      sslRecv decode st x =
        .ok (detachPad f,
          ⟨st₁.buf.drop (st₁.buf.length - padLen f), st₁.stream⟩) ∧
      st₁.buf.length - (st₁.buf.drop (st₁.buf.length - padLen f)).length =
        st₁.buf.length - padLen f) ∧
    (∀ f : Frame, prePad f = [] → detachPad f = f) := by
  refine ⟨?_, ?_, ?_⟩
  · intro stream x f hne hdec hP
    have hn0 : ¬((stream.take x).length = 0) := by
      simpa [List.length_eq_zero] using hne
    have hnn : ¬(((stream.take x).length : Int) - (padLen f : Int) < 0) := by
      omega
    have htn : (((stream.take x).length : Int) - (padLen f : Int)).toNat =
        (stream.take x).length - padLen f := by
      omega
    constructor
    · simp only [streamRecv, hdec, if_neg hn0, if_neg hnn, htn]
    · have hle : (stream.take x).length ≤ stream.length := by
        rw [List.length_take]
        exact min_le_right x stream.length
      rw [List.length_drop]
      omega
  · intro st st₁ x f hfill hdec hP
    have hok : sslRecv decode st x = sslConsume decode st₁ := by
      simp [sslRecv, hfill, Except.bind]
    have hnn : (0 : Int) ≤ (st₁.buf.length : Int) - (padLen f : Int) := by
      omega
    have htn : ((st₁.buf.length : Int) - (padLen f : Int)).toNat =
        st₁.buf.length - padLen f := by
      omega
    constructor
    · rw [hok]
      simp only [sslConsume, hdec, pySlice, if_pos hnn, htn]
    · rw [List.length_drop]
      omega
  · intro f h
    simp [detachPad, h]

theorem c1_padding_law_witness :
    streamRecv padDemoDecode [9, 8, 7] 3 = .ok ([⟨false, [9]⟩], [8, 7]) :=
  ((c1_padding_law padDemoDecode).1 [9, 8, 7] 3
    [⟨false, [9]⟩, ⟨true, [8, 7]⟩] (by decide) (by decide) (by decide)).1

/-- C8: a zero-length read is fatal to the current call. StreamSocket.recv
peeking zero bytes, and SSLStreamSocket.recv reaching its blocking read and
getting zero bytes, both raise `socket.error` (connection closed), never a
silent `None`. -/
theorem c8_zero_read_is_fatal (decode : Decoder) :
    (∀ (stream : Bytes) (x : Nat), stream.take x = [] →
      streamRecv decode stream x = .error .connectionClosed) ∧
    (∀ (st : SSLState) (x : Nat),
      pktTruthy (if st.buf ≠ [] then decode st.buf else none) = false →
      st.stream.take x = [] →
      sslRecv decode st x = .error .connectionClosed) := by
  constructor
  · intro stream x h
    simp [streamRecv, h]
  · intro st x h1 h2
    have h1' : ¬(pktTruthy (if st.buf ≠ [] then decode st.buf else none) = true) := by
      rw [h1]
      exact Bool.false_ne_true
    unfold sslRecv sslFill
    rw [if_neg h1', h2]
    rfl

theorem c8_zero_read_is_fatal_witness :
    sslRecv padDemoDecode ⟨[], []⟩ 5 = .error .connectionClosed :=
  (c8_zero_read_is_fatal padDemoDecode).2 ⟨[], []⟩ 5 rfl rfl

/-- C10: in SSLStreamSocket.recv only the first decode of the buffer is
guarded. When the first attempt produced nothing, a nonempty read was
appended and the decoder still fails on the grown buffer, the failure
propagates to the caller; and when the first attempt succeeded (truthy),
no read happens and the returned packet is the one produced by the second,
unguarded decode of the same full buffer. -/
theorem c10_unguarded_redecode (decode : Decoder) (st : SSLState) (x : Nat) :
    (pktTruthy (if st.buf ≠ [] then decode st.buf else none) = false →
      st.stream.take x ≠ [] →
      decode (st.buf ++ st.stream.take x) = none →
      sslRecv decode st x = .error .decodeFailed) ∧
    (∀ f : Frame, st.buf ≠ [] → decode st.buf = some f → frameLen f ≠ 0 →
      sslRecv decode st x =
        .ok (detachPad f,
          ⟨pySlice st.buf ((st.buf.length : Int) - (padLen f : Int)),
            st.stream⟩)) := by
  constructor
  · intro h1 h2 h3
    have h1' : ¬(pktTruthy (if st.buf ≠ [] then decode st.buf else none) = true) := by
      rw [h1]
      exact Bool.false_ne_true
    have h2' : ¬((st.stream.take x).length = 0) := by
      simpa [List.length_eq_zero] using h2
    have hfill : sslFill decode st x =
        .ok ⟨st.buf ++ st.stream.take x, st.stream.drop x⟩ := by
      unfold sslFill
      rw [if_neg h1', if_neg h2']
    unfold sslRecv
    rw [hfill]
    simp only [Except.bind]
    unfold sslConsume
    rw [h3]
  · intro f hb hdec hlen
    have htt : pktTruthy (if st.buf ≠ [] then decode st.buf else none) = true := by
      rw [if_pos hb, hdec]
      simpa [pktTruthy] using hlen
    have hfill : sslFill decode st x = .ok st := by
      unfold sslFill
      rw [if_pos htt]
    unfold sslRecv
    rw [hfill]
    simp only [Except.bind]
    unfold sslConsume
    rw [hdec]

theorem c10_unguarded_redecode_witness :
    sslRecv minLenDecode ⟨[], [5]⟩ 1 = .error .decodeFailed :=
  (c10_unguarded_redecode minLenDecode ⟨[], [5]⟩ 1).1 rfl (by decide) rfl

/-- C2: buffer invariant of SSLStreamSocket.recv. Every successful call
factors through a fill step; the packet returned is the detached decode of
the filled buffer, the channel side is untouched by the consume step, the
buffer splits as consumed prefix of length `len(B) - P` plus the kept
remainder of length `P`, and when the decoder's padding bytes are exactly a
trailing segment of the buffer, the new buffer holds exactly those not yet
returned bytes and none of the record just returned. -/
theorem c2_buffer_invariant (decode : Decoder) (st st' : SSLState) (x : Nat)
    (f : Frame) (h : sslRecv decode st x = .ok (f, st')) :
    ∃ st₁ f0, sslFill decode st x = .ok st₁ ∧ decode st₁.buf = some f0 ∧
      f = detachPad f0 ∧ st'.stream = st₁.stream ∧
      (padLen f0 ≤ st₁.buf.length →
        st₁.buf = st₁.buf.take (st₁.buf.length - padLen f0) ++ st'.buf ∧
        st'.buf.length = padLen f0) ∧
      (List.IsSuffix (padBytes f0) st₁.buf → st'.buf = padBytes f0) := by
  unfold sslRecv at h
  rcases hfill : sslFill decode st x with e | st₁ <;> rw [hfill] at h
  · simp [Except.bind] at h
  · simp only [Except.bind] at h
    unfold sslConsume at h
    rcases hdec : decode st₁.buf with _ | f0 <;> rw [hdec] at h
    · simp at h
    · simp only [Except.ok.injEq, Prod.mk.injEq] at h
      obtain ⟨hf, hst⟩ := h
      refine ⟨st₁, f0, rfl, hdec, hf.symm, ?_, ?_, ?_⟩
      · rw [← hst]
      · intro hP
        have hnn : (0 : Int) ≤ (st₁.buf.length : Int) - (padLen f0 : Int) := by
          omega
        have htn : ((st₁.buf.length : Int) - (padLen f0 : Int)).toNat =
            st₁.buf.length - padLen f0 := by
          omega
        have hbuf : st'.buf = st₁.buf.drop (st₁.buf.length - padLen f0) := by
          rw [← hst]
          simp [pySlice, hnn, htn]
        constructor
        · rw [hbuf, List.take_append_drop]
        · rw [hbuf, List.length_drop]
          omega
      · intro hsuf
        obtain ⟨t, ht⟩ := hsuf
        have hlenpb : (padBytes f0).length = padLen f0 := padBytes_length f0
        have hP : padLen f0 ≤ st₁.buf.length := by
          rw [← ht]
          simp [← hlenpb]
        have hnn : (0 : Int) ≤ (st₁.buf.length : Int) - (padLen f0 : Int) := by
          omega
        have htn : ((st₁.buf.length : Int) - (padLen f0 : Int)).toNat =
            st₁.buf.length - padLen f0 := by
          omega
        have hbuf : st'.buf = st₁.buf.drop (st₁.buf.length - padLen f0) := by
          rw [← hst]
          simp [pySlice, hnn, htn]
        have hlt : st₁.buf.length - padLen f0 = t.length := by
          rw [← ht]
          simp [← hlenpb]
        rw [hbuf, hlt, ← ht, List.drop_left]

theorem c2_buffer_invariant_witness :
    ∃ st₁ f0, sslFill padDemoDecode ⟨[4, 5, 6], []⟩ 0 = .ok st₁ ∧
      padDemoDecode st₁.buf = some f0 ∧
      ([⟨false, [4]⟩] : Frame) = detachPad f0 ∧
      ([] : Bytes) = st₁.stream ∧
      (padLen f0 ≤ st₁.buf.length →
        st₁.buf = st₁.buf.take (st₁.buf.length - padLen f0) ++ ([5, 6] : Bytes) ∧
        ([5, 6] : Bytes).length = padLen f0) ∧
      (List.IsSuffix (padBytes f0) st₁.buf → ([5, 6] : Bytes) = padBytes f0) :=
  c2_buffer_invariant padDemoDecode ⟨[4, 5, 6], []⟩ ⟨[5, 6], []⟩ 0
    [⟨false, [4]⟩] (by decide)

/-- C4: decoder dispatch of L3RawSocket.recv on a non-outgoing read. A hit
in the link-type registry decodes at level 2 with no warning and the link
header stripped, so the returned payload is the raw length minus the link
header length when the decode partitions the input; a miss there and a hit
in the protocol registry returns the decode as-is with no warning; a miss in
both uses the default class and emits exactly one warning carrying the
interface, the protocol code, the family code and the default's name. -/
theorem c4_dispatch (cfg : L3Conf) (pkt : Bytes) (sa : SockAddrLL)
    (hOut : sa.pkttype ≠ PACKET_OUTGOING) :
    (∀ d hd tl, cfg.l2types sa.hatype = some d → d pkt = .ok (hd :: tl) →
      l3recv cfg pkt sa = .ok ⟨some tl, [], 1⟩ ∧
      (frameLen (hd :: tl) = pkt.length →
        frameLen tl = pkt.length - hd.load.length)) ∧
    (∀ d f, cfg.l2types sa.hatype = none → cfg.l3types sa.protocol = some d →
      d pkt = .ok f → l3recv cfg pkt sa = .ok ⟨some f, [], 1⟩) ∧
    (∀ f, cfg.l2types sa.hatype = none → cfg.l3types sa.protocol = none →
      cfg.default_l2 pkt = .ok f →
      l3recv cfg pkt sa =
        .ok ⟨some f,
          [⟨sa.ifname, sa.protocol, sa.hatype, cfg.default_l2_name⟩], 1⟩) := by
  refine ⟨?_, ?_, ?_⟩
  · intro d hd tl h2 hdec
    constructor
    · simp [l3recv, hOut, selectCls, h2, hdec, Except.bind]
    · intro hlen
      have hsplit : frameLen (hd :: tl) = hd.load.length + frameLen tl := by
        simp [frameLen]
      omega
  · intro d f h2 h3 hdec
    simp [l3recv, hOut, selectCls, h2, h3, hdec, Except.bind]
  · intro f h2 h3 hdec
    simp [l3recv, hOut, selectCls, h2, h3, hdec, Except.bind]

theorem c4_dispatch_witness :
    l3recv demoL3Conf [1, 2] ⟨"eth0", 2048, 0, 1⟩ =
      .ok ⟨some [⟨false, [1, 2]⟩], [⟨"eth0", 2048, 1, "Ether"⟩], 1⟩ :=
  (c4_dispatch demoL3Conf [1, 2] ⟨"eth0", 2048, 0, 1⟩ (by decide)).2.2
    [⟨false, [1, 2]⟩] rfl rfl rfl

/-- C3: N concatenated well-formed frames are returned by N sequential
StreamSocket.recv calls in the original order with zero residual bytes.
`ps` lists each frame's layers with its wire bytes; the decoder hypothesis
says the configured class speculatively decodes one frame plus whatever
trails it, reporting the trailing bytes as padding; each peek size must
cover at least the frame at the head of the stream. Every call then consumes
exactly one frame, so the next call's peek starts at the next frame's first
byte, and after the last call the channel is empty. -/
theorem c3_frames_in_order (decode : Decoder) :
    ∀ (ps : List (Frame × Bytes)) (xs : List Nat),
      (∀ p ∈ ps, p.1 ≠ [] ∧ p.2 ≠ [] ∧ ∀ l ∈ p.1, l.isPadding = false) →
      (∀ p ∈ ps, ∀ rest : Bytes,
        decode (p.2 ++ rest) = some (p.1 ++ padWrap rest)) →
      List.Forall₂ (fun (x : Nat) (p : Frame × Bytes) => p.2.length ≤ x) xs ps →
      streamRecvN decode xs (ps.map Prod.snd).flatten =
        .ok (ps.map Prod.fst, []) := by
  intro ps
  induction ps with
  | nil =>
    intro xs hW hD hX
    cases hX
    rfl
  | cons p ps' ih =>
    intro xs hW hD hX
    cases hX with
    | cons hxp htail =>
      rename_i x xs'
      obtain ⟨hfl, hb, hnp⟩ := hW p (List.mem_cons_self p ps')
      have htake : (p.2 ++ (ps'.map Prod.snd).flatten).take x =
          p.2 ++ ((ps'.map Prod.snd).flatten.take (x - p.2.length)) := by
        rw [List.take_append_eq_append_take, List.take_of_length_le hxp]
      set r0 := (ps'.map Prod.snd).flatten.take (x - p.2.length) with hr0
      have hdec := hD p (List.mem_cons_self p ps') r0
      have hPlen := padLen_append_padWrap r0 hnp
      have hdet := detachPad_append_padWrap r0 hfl hnp
      have hlen : (p.2 ++ r0).length = p.2.length + r0.length :=
        List.length_append p.2 r0
      have hb0 : p.2.length ≠ 0 := by
        simpa [List.length_eq_zero] using hb
      have hn0 : ¬((p.2 ++ r0).length = 0) := by
        rw [hlen]
        omega
      have hnn : ¬(((p.2 ++ r0).length : Int) -
          (padLen (p.1 ++ padWrap r0) : Int) < 0) := by
        rw [hlen, hPlen]
        omega
      have htn : (((p.2 ++ r0).length : Int) -
          (padLen (p.1 ++ padWrap r0) : Int)).toNat = p.2.length := by
        rw [hlen, hPlen]
        omega
      have hstep : streamRecv decode (p.2 ++ (ps'.map Prod.snd).flatten) x =
          .ok (p.1, (ps'.map Prod.snd).flatten) := by
        simp only [streamRecv, htake, hdec, if_neg hn0, if_neg hnn, htn, hdet,
          List.drop_left]
      have hrest := ih xs'
        (fun q hq => hW q (List.mem_cons_of_mem p hq))
        (fun q hq => hD q (List.mem_cons_of_mem p hq)) htail
      simp only [List.map_cons, List.flatten_cons, streamRecvN, hstep,
        Except.bind, hrest]

theorem c3_frames_in_order_witness :
    streamRecvN demoDecode [4, 2] [1, 2, 3] =
      .ok ([[⟨false, [1, 2]⟩], [⟨false, [3]⟩]], []) :=
  c3_frames_in_order demoDecode
    [([⟨false, [1, 2]⟩], [1, 2]), ([⟨false, [3]⟩], [3])] [4, 2]
    (by decide)
    (by
      intro p hp rest
      simp only [List.mem_cons, List.not_mem_nil, or_false] at hp
      rcases hp with rfl | rfl
      · rfl
      · rfl)
    (List.Forall₂.cons (by decide) (List.Forall₂.cons (by decide)
      List.Forall₂.nil))

/-- C7: decode failure policy of L3RawSocket.recv. With the dispatched class
fixed, a `KeyboardInterrupt` from the decode always propagates, whatever the
strict flag; any other decode failure propagates when
`conf.debug_dissector` is set and otherwise degrades to the opaque
`conf.raw_layer` packet with no exception surfacing. -/
theorem c7_decode_failure_policy (cfg : L3Conf) (pkt : Bytes)
    (sa : SockAddrLL) (cls : ClsDecoder) (lvl : Nat) (ws : List GuessWarning)
    (hOut : sa.pkttype ≠ PACKET_OUTGOING)
    (hSel : selectCls cfg sa = (cls, lvl, ws)) :
    (cls pkt = .interrupt →
      l3recv cfg pkt sa = .error .keyboardInterrupt) ∧
    (cls pkt = .exn → cfg.debug_dissector = true →
      l3recv cfg pkt sa = .error .dissectError) ∧
    (cls pkt = .exn → cfg.debug_dissector = false →
      l3recv cfg pkt sa =
        .ok ⟨some (if lvl = 2 then (rawLayer pkt).tail else rawLayer pkt),
          ws, 1⟩) := by
  refine ⟨?_, ?_, ?_⟩
  · intro h
    simp [l3recv, hOut, hSel, h, Except.bind]
  · intro h hdbg
    simp [l3recv, hOut, hSel, h, hdbg, Except.bind]
  · intro h hdbg
    simp [l3recv, hOut, hSel, h, hdbg, Except.bind]

theorem c7_decode_failure_policy_witness :
    l3recv interruptL3Conf [7] ⟨"eth0", 2048, 0, 1⟩ =
      .error .keyboardInterrupt :=
  (c7_decode_failure_policy interruptL3Conf [7] ⟨"eth0", 2048, 0, 1⟩
    (fun _ => .interrupt) 3 [⟨"eth0", 2048, 1, "Ether"⟩]
    (by decide) rfl).1 rfl

end SuperSock
